import Mathlib

/-!
# Formal model of the lanta window manager core

A shallow embedding, in Lean 4, of the core data structures and algorithms of
the `lanta` tiling window manager (Rust):

* `src/stack.rs`   — the focus-tracking ordered container `Stack<T>`;
* `src/lib.rs`     — `Viewport::without_strut`, the orchestrator `Lanta`
  (window list, group list, crtc table) and its operations;
* `src/layout/tiled.rs` — the `TiledLayout` and `ThreeColumn` layouts.

Machine integers are modelled as `Nat`.  Rust `u32`/`usize` subtraction is
modelled with explicit wrapping (`sub32`, `usub`): in release builds Rust
integer overflow wraps.  Operations that panic in both debug and release
builds (out-of-bounds `Vec::swap`, division by zero, a failed `expect`)
return `Option`, with `none` marking the panic.  Additions and the values
stored in the structures stay far below `2^32`/`2^64` in any real execution,
so additions are only wrapped where the corresponding Rust expression could
plausibly wrap; each wrap site mirrors one expression of the source.
-/

namespace LantaWM

/-- `2^64`, the modulus of Rust's `usize` on the targeted 64-bit platforms. -/
def USIZE : Nat := 2 ^ 64

/-- `2^32`, the modulus of Rust's `u32`. -/
def U32 : Nat := 2 ^ 32

/-- Wrapping `usize` subtraction (Rust release semantics for `a - b`). -/
def usub (a b : Nat) : Nat := if b ≤ a then a - b else USIZE - (b - a)

/-- Wrapping `u32` subtraction (Rust release semantics for `a - b`). -/
def sub32 (a b : Nat) : Nat := if b ≤ a then a - b else U32 - (b - a)

/-- Wrapping `u32` addition. -/
def add32 (a b : Nat) : Nat := (a + b) % U32

/-- Wrapping `u32` multiplication. -/
def mul32 (a b : Nat) : Nat := (a * b) % U32

/-! ## `src/stack.rs` — `Stack<T>` -/

/-- `Stack<T>`: a vector of elements plus the index of the focused element
(`struct Stack<T> { windows: Vec<T>, focused: usize }`). -/
structure Stack (T : Type) where
  windows : List T
  focused : Nat
deriving Repr, DecidableEq

namespace Stack

/-- `Stack::default()` / `Stack::new()`. -/
def new (T : Type) : Stack T := ⟨[], 0⟩

/-- `Stack::len`. -/
def len {T : Type} (s : Stack T) : Nat := s.windows.length

/-- `From<Vec<T>> for Stack<T>`: focus starts at 0. -/
def fromList {T : Type} (l : List T) : Stack T := ⟨l, 0⟩

/-- `Stack::push`: append and focus the new element
(`self.focused = self.windows.len() - 1` after the push). -/
def push {T : Type} (s : Stack T) (v : T) : Stack T :=
  ⟨s.windows ++ [v], s.windows.length⟩

/-- `Stack::focused()`: `self.windows.get(self.focused)`. -/
def focusedElem {T : Type} (s : Stack T) : Option T := s.windows.get? s.focused

/-- `Iterator::position(p)`: index of the first element satisfying `p`. -/
def position {T : Type} (p : T → Bool) : List T → Option Nat
  | [] => none
  | a :: as => if p a then some 0 else (position p as).map (· + 1)

/-- `Stack::remove(p)`: remove the first element matching `p`; if
`self.focused >= position && self.focused > 0` the focus index moves left by
one.  Panics (`none`) when no element matches. -/
def remove {T : Type} (s : Stack T) (p : T → Bool) : Option (Stack T) :=
  match position p s.windows with
  | some pos =>
      some ⟨s.windows.eraseIdx pos,
            if pos ≤ s.focused ∧ 0 < s.focused then s.focused - 1 else s.focused⟩
  | none => none

/-- `Stack::focus(p)`: focus the first match; no-op when none matches. -/
def focus {T : Type} (s : Stack T) (p : T → Bool) : Stack T :=
  match position p s.windows with
  | some pos => ⟨s.windows, pos⟩
  | none => s

/-- `Stack::focus_next`: `if self.focused < self.len() - 1 { self.focused += 1 }`.
The `self.len() - 1` is wrapping `usize` subtraction. -/
def focus_next {T : Type} (s : Stack T) : Stack T :=
  if s.focused < usub s.windows.length 1 then ⟨s.windows, s.focused + 1⟩ else s

/-- `Stack::focus_previous`: `if self.focused > 0 { self.focused -= 1 }`. -/
def focus_previous {T : Type} (s : Stack T) : Stack T :=
  if 0 < s.focused then ⟨s.windows, s.focused - 1⟩ else s

/-- `Vec::swap(i, j)`: panics (`none`) when an index is out of bounds. -/
def swapIdx {T : Type} (l : List T) (i j : Nat) : Option (List T) :=
  match l.get? i, l.get? j with
  | some a, some b => some ((l.set i b).set j a)
  | _, _ => none

/-- `Stack::shuffle_next`:
`if self.focused <= self.len() - 2 { self.windows.swap(self.focused, self.focused + 1); self.focused += 1 }`.
`self.len() - 2` is wrapping `usize` subtraction; for stacks of fewer than two
elements the subsequent `Vec::swap` is out of bounds and panics (in a debug
build the subtraction itself already panics), hence `none`. -/
def shuffle_next {T : Type} (s : Stack T) : Option (Stack T) :=
  if s.focused ≤ usub s.windows.length 2 then
    match swapIdx s.windows s.focused (s.focused + 1) with
    | some l => some ⟨l, s.focused + 1⟩
    | none => none
  else some s

/-- `Stack::shuffle_previous`:
`if self.focused >= 1 { self.windows.swap(self.focused, self.focused - 1); self.focused -= 1 }`. -/
def shuffle_previous {T : Type} (s : Stack T) : Option (Stack T) :=
  if 1 ≤ s.focused then
    match swapIdx s.windows s.focused (s.focused - 1) with
    | some l => some ⟨l, s.focused - 1⟩
    | none => none
  else some s

/-- `Stack::slice(a..b)`: `&self.windows[a..b]` (used with valid ranges only). -/
def slice {T : Type} (s : Stack T) (a b : Nat) : List T :=
  (s.windows.drop a).take (b - a)

end Stack

/-- One operation of the `push`/`remove`/`focus_next`/`focus_previous`
vocabulary quantified over by the FocusStack property. -/
inductive StackOp (T : Type) where
  | push (v : T)
  | remove (p : T → Bool)
  | focusNext
  | focusPrev

/-- Apply one operation; `none` marks a panic (`remove` of an absent element). -/
def applyStackOp {T : Type} : StackOp T → Stack T → Option (Stack T)
  | .push v, s => some (s.push v)
  | .remove p, s => s.remove p
  | .focusNext, s => some s.focus_next
  | .focusPrev, s => some s.focus_previous

/-- Apply a sequence of stack operations left to right. -/
def applyStackOps {T : Type} : List (StackOp T) → Stack T → Option (Stack T)
  | [], s => some s
  | op :: rest, s => (applyStackOp op s).bind (applyStackOps rest)

/-- The values pushed by a sequence of operations, in order. -/
def pushedList {T : Type} : List (StackOp T) → List T
  | [] => []
  | .push v :: rest => v :: pushedList rest
  | .remove _ :: rest => pushedList rest
  | .focusNext :: rest => pushedList rest
  | .focusPrev :: rest => pushedList rest

/-- The FocusStack index invariant: the focus index is in bounds unless the
stack is empty. -/
def StackInv {T : Type} (s : Stack T) : Prop :=
  s.windows = [] ∨ s.focused < s.windows.length

/-! ## `src/lib.rs` — `Viewport`, `Strut`, `Viewport::without_strut`

Two copies of `without_strut` exist in the repository: the one in
`src/lib.rs` (compiled into the crate — `lib.rs` declares `mod` only for
`cmd`, `groups`, `keys`, `layout`, `stack`, `x`) and a stand-alone one in
`src/viewport.rs` (not reachable from `lib.rs`).  They differ in exactly one
expression: for the top margin `lib.rs` has `top = cmp::min(top, strut.top)`
while `viewport.rs` has `top = cmp::max(top, strut.top)`.  Both are embedded
below. -/

/-- `Viewport { x, y, width, height }`, all `u32`. -/
structure Viewport where
  x : Nat
  y : Nat
  width : Nat
  height : Nat
deriving Repr, DecidableEq

/-- `Strut`: reserved margins plus the perpendicular extent of each margin. -/
structure Strut where
  left : Nat
  right : Nat
  top : Nat
  bottom : Nat
  left_start_y : Nat
  left_end_y : Nat
  right_start_y : Nat
  right_end_y : Nat
  top_start_x : Nat
  top_end_x : Nat
  bottom_start_x : Nat
  bottom_end_x : Nat
deriving Repr, DecidableEq

namespace Viewport

/-- `Viewport::without_strut` as compiled into the crate (`src/lib.rs`,
lines 116-139).  Note the `min` in the top-margin update. -/
def without_strut (self : Viewport) (screen_width screen_height : Nat)
    (strut : Strut) : Viewport :=
  let left := self.x
  let right := add32 self.x self.width
  let top := self.y
  let bottom := add32 self.y self.height
  let left :=
    if 0 < strut.left ∧ top ≤ strut.left_start_y ∧ strut.left_end_y ≤ bottom then
      max left strut.left
    else left
  let right :=
    if 0 < strut.right ∧ top ≤ strut.right_start_y ∧ strut.right_end_y ≤ bottom then
      min right (sub32 screen_width strut.right)
    else right
  let top :=
    if 0 < strut.top ∧ left ≤ strut.top_start_x ∧ strut.top_end_x ≤ right then
      min top strut.top
    else top
  let bottom :=
    if 0 < strut.bottom ∧ left ≤ strut.bottom_start_x ∧ strut.bottom_end_x ≤ right then
      min bottom (sub32 screen_height strut.bottom)
    else bottom
  ⟨left, top, sub32 right left, sub32 bottom top⟩

/-- The `src/viewport.rs` variant of `without_strut` (lines 58-81): identical
except that the top margin clamps with `max`. -/
def without_strut_vp (self : Viewport) (screen_width screen_height : Nat)
    (strut : Strut) : Viewport :=
  let left := self.x
  let right := add32 self.x self.width
  let top := self.y
  let bottom := add32 self.y self.height
  let left :=
    if 0 < strut.left ∧ top ≤ strut.left_start_y ∧ strut.left_end_y ≤ bottom then
      max left strut.left
    else left
  let right :=
    if 0 < strut.right ∧ top ≤ strut.right_start_y ∧ strut.right_end_y ≤ bottom then
      min right (sub32 screen_width strut.right)
    else right
  let top :=
    if 0 < strut.top ∧ left ≤ strut.top_start_x ∧ strut.top_end_x ≤ right then
      max top strut.top
    else top
  let bottom :=
    if 0 < strut.bottom ∧ left ≤ strut.bottom_start_x ∧ strut.bottom_end_x ≤ right then
      min bottom (sub32 screen_height strut.bottom)
    else bottom
  ⟨left, top, sub32 right left, sub32 bottom top⟩

end Viewport

/-! ## `src/layout/tiled.rs` — `TiledLayout` and `ThreeColumn`

`MappedWindow { id, vp }` is one placement.  The element type of the window
stack is kept generic, matching `impl<T: Copy> Layout<T> for ...`. -/

/-- One placement: `MappedWindow { id, vp }`. -/
structure MappedWindow (T : Type) where
  id : T
  vp : Viewport
deriving Repr, DecidableEq

/-- `TiledLayout { name, padding }`. -/
structure TiledLayout where
  name : String
  padding : Nat
deriving Repr, DecidableEq

/-- The per-window closure inside `TiledLayout::layout`: window `i` gets
column `i`, inset by the padding. -/
def TiledLayout.place {T : Type} (self : TiledLayout) (viewport : Viewport)
    (tile_width : Nat) (p : Nat × T) : MappedWindow T :=
  { id := p.2,
    vp := { x := add32 (add32 viewport.x self.padding) (mul32 p.1 (add32 tile_width self.padding)),
            y := add32 viewport.y self.padding,
            width := tile_width,
            height := sub32 viewport.height (mul32 self.padding 2) } }

/-- `TiledLayout::layout`.  `tile_width` is
`((viewport.width - self.padding) / stack.len() as u32) - self.padding`;
for an empty stack the division by `stack.len()` panics (`none`), in debug
and release builds alike.  The subtractions wrap. -/
def TiledLayout.layout {T : Type} (self : TiledLayout) (viewport : Viewport)
    (stack : Stack T) : Option (List (MappedWindow T)) :=
  if stack.windows.length = 0 then none
  else
    let tile_width := sub32 (sub32 viewport.width self.padding / stack.windows.length) self.padding
    some (stack.windows.enum.map (self.place viewport tile_width))

/-- `ThreeColumn { name, inner_padding }`. -/
structure ThreeColumn where
  name : String
  inner_padding : Nat
deriving Repr, DecidableEq

/-- The `cols` partition computed by `ThreeColumn::layout` for `n >= 3`
windows: `win_per_col = stack.len() / 3`,
`leftovers = stack.len() - 3 * win_per_col`, then the three `stack.slice`
calls, with the `leftovers == 2` case split out exactly as in the source. -/
def threeColumnCols {T : Type} (stack : Stack T) : List (List T) :=
  let win_per_col := stack.windows.length / 3
  let leftovers := stack.windows.length - 3 * win_per_col
  match leftovers with
  | 2 =>
      [stack.slice 0 (win_per_col + 1),
       stack.slice (win_per_col + 1) (2 * win_per_col + 1),
       stack.slice (2 * win_per_col + 1) stack.windows.length]
  | _ =>
      [stack.slice 0 win_per_col,
       stack.slice win_per_col (2 * win_per_col + leftovers),
       stack.slice (2 * win_per_col + leftovers) stack.windows.length]

/-- `ThreeColumn::layout`.  The `match stack.len()` arms are mirrored: `0`
emits nothing, `1` gives the single window the full viewport, `2` does the
1:2 split, and `_` lays the `threeColumnCols` partition out into three
columns.  Within the `_` arm each column is non-empty (its size is at least
`stack.len() / 3 >= 1`), so the per-column `tile_height` division cannot
divide by zero. -/
def ThreeColumn.layout {T : Type} (self : ThreeColumn) (viewport : Viewport)
    (stack : Stack T) : List (MappedWindow T) :=
  match stack.windows.length with
  | 0 => []
  | 1 =>
      match stack.windows.head? with
      | some id => [{ id := id, vp := viewport }]
      | none => []
  | 2 =>
      let left_width := sub32 viewport.width self.inner_padding / 3
      let right_width := 2 * left_width + sub32 viewport.width self.inner_padding % 3
      let viewports :=
        [{ x := viewport.x, y := viewport.y,
           width := left_width, height := viewport.height : Viewport },
         { x := add32 (add32 viewport.x self.inner_padding) left_width, y := viewport.y,
           width := right_width, height := viewport.height : Viewport }]
      (stack.windows.zip viewports).map fun p => { id := p.1, vp := p.2 }
  | _ + 3 =>
      let tile_width := sub32 viewport.width (mul32 self.inner_padding 2) / 3
      let cols := threeColumnCols stack
      cols.enum.flatMap fun col =>
        let x := add32 viewport.x (mul32 col.1 (add32 tile_width self.inner_padding))
        let tile_height :=
          sub32 viewport.height (mul32 self.inner_padding (col.2.length - 1)) / col.2.length
        col.2.enum.map fun row =>
          { id := row.2,
            vp := { x := x,
                    y := add32 viewport.y (mul32 row.1 (add32 tile_height self.inner_padding)),
                    width := tile_width,
                    height := tile_height } }

/-! ## `src/lib.rs` — the orchestrator `Lanta`

Window handles and crtc identifiers are opaque `u32`-backed identifiers,
modelled as `Nat`.  The `HashMap<Crtc, (CrtcInfo, GroupId)>` is modelled as
an association list whose keys are kept distinct; every operation on it
below is insensitive to entry order, matching the unspecified iteration
order of the hash map.  Calls on the display-server connection
(map/unmap/configure/focus, `update_ewmh_desktops`) take `&self` and do not
mutate the modelled state; they are dropped. -/

/-- `CrtcInfo { x, y, width, height }` (`i16`, `i16`, `u16`, `u16`). -/
structure CrtcInfo where
  x : Int
  y : Int
  width : Nat
  height : Nat
deriving Repr, DecidableEq

/-- The fields of `x::CrtcChange` consumed by `Lanta::on_crtc_change`. -/
structure CrtcChange where
  crtc : Nat
  x : Int
  y : Int
  width : Nat
  height : Nat
deriving Repr, DecidableEq

/-- Modelled from the spec: the `Group` record used by `src/lib.rs`
(`group.layout_id`, `group.focused_window`, constructed from a name).  The
file `src/groups.rs` in the tree is a stale incompatible version of this
type; per §3 of the specification a Group is "{name, LayoutId (index into
the layout list), focused WindowHandle or none}", which matches every field
access in `lib.rs`. -/
structure Group where
  name : String
  layout_id : Nat
  focused_window : Option Nat
deriving Repr, DecidableEq

/-- `Window { id, group }`: one managed window and its group. -/
structure Window where
  id : Nat
  group : Nat
deriving Repr, DecidableEq

/-- One entry of the crtc table: key, geometry, assigned group. -/
structure CrtcEntry where
  crtc : Nat
  info : CrtcInfo
  group : Nat
deriving Repr, DecidableEq

/-- The orchestrator state: the fields of `struct Lanta` that the modelled
operations read or write (`connection`, `keys`, `layouts`, `screen` and
`children` are owned by the dropped display-server/config collaborators). -/
structure Lanta where
  groups : List Group
  windows : List Window
  crtc : List CrtcEntry
  current_crtc : Nat
deriving Repr, DecidableEq

namespace Lanta

/-- `Vec<Window>::windows_in_grp`: ids of the windows of one group, in
window-list order. -/
def windows_in_grp (windows : List Window) (group_id : Nat) : List Nat :=
  (windows.filter fun w => w.group == group_id).map Window.id

/-- `Lanta::group_idx`: the group shown on the current output. -/
def group_idx (self : Lanta) : Option Nat :=
  (self.crtc.find? fun e => e.crtc == self.current_crtc).map CrtcEntry.group

/-- `(0..).find(|gid| !gidx_set.contains(gid))`, unfolded with enough fuel:
the first natural number not in `gs` is reached within `gs.length + 1`
steps. -/
def findFrom (gs : List Nat) : Nat → Nat → Nat
  | 0, k => k
  | fuel + 1, k => if k ∈ gs then findFrom gs fuel (k + 1) else k

/-- `Lanta::find_next_unallocated_group`: the least GroupId not assigned to
any output.  (The source iterates `(0..)`; the `expect` on that iterator is
unreachable.) -/
def find_next_unallocated_group (self : Lanta) : Nat :=
  let gidx_set := self.crtc.map CrtcEntry.group
  findFrom gidx_set (gidx_set.length + 1) 0

/-- `Lanta::focus_group` (`src/lib.rs` lines 697-719): assign `new_idx` to
the current output, demoting whichever output held `new_idx` to the current
output's old group (a swap). -/
def focus_group (self : Lanta) (new_idx : Nat) : Lanta :=
  if self.groups.length ≤ new_idx then self
  else
    let after_insert :=
      (self.crtc.find? fun e => e.crtc == self.current_crtc).map CrtcEntry.group
    let crtc1 :=
      match after_insert with
      | some old_idx =>
          if old_idx ≠ new_idx then
            self.crtc.map fun (e : CrtcEntry) =>
              if e.group == new_idx then { e with group := old_idx } else e
          else self.crtc
      | none => self.crtc
    let crtc2 :=
      crtc1.map fun (e : CrtcEntry) =>
        if e.crtc == self.current_crtc then { e with group := new_idx } else e
    { self with crtc := crtc2 }

/-- `Lanta::shift_group`: compute a target index from the current one and
the number of groups, then `focus_group` it.  (`deactivate_all_groups` and
`activate_current_groups` only talk to the connection.) -/
def shift_group (self : Lanta) (fn : Nat → Nat → Option Nat) : Lanta :=
  match (group_idx self).bind fun cur => fn cur self.groups.length with
  | some next_group => focus_group self next_group
  | none => self

/-- `Lanta::next_group`. -/
def next_group (self : Lanta) : Lanta :=
  shift_group self fun cur len => if cur + 1 < len then some (cur + 1) else none

/-- `Lanta::prev_group` (`checked_sub(1)`). -/
def prev_group (self : Lanta) : Lanta :=
  shift_group self fun cur _ => if cur = 0 then none else some (cur - 1)

/-- `Lanta::focused_window`: the focused window of the current group. -/
def focused_window (self : Lanta) : Option Nat :=
  (group_idx self).bind fun gid => (self.groups.get? gid).bind Group.focused_window

/-- `Lanta::move_window_to_group`: rewrite the group field of window `id`. -/
def move_window_to_group (self : Lanta) (id : Nat) (group : Nat) : Lanta :=
  { self with windows := self.windows.map fun w =>
      if w.id == id then { w with group := group } else w }

/-- `Lanta::move_focused_to_group`: retarget the focused window's group,
then perform the `focus_group` swap. -/
def move_focused_to_group (self : Lanta) (fn : Nat → Nat → Option Nat) : Lanta :=
  match (group_idx self).bind fun idx => fn idx self.groups.length with
  | some gid =>
      let self1 :=
        match focused_window self with
        | some id => move_window_to_group self id gid
        | none => self
      focus_group self1 gid
  | none => self

/-- `Lanta::move_focused_to_next_group`. -/
def move_focused_to_next_group (self : Lanta) : Lanta :=
  move_focused_to_group self fun cur len => if cur + 1 < len then some (cur + 1) else none

/-- `Lanta::move_focused_to_prev_group`. -/
def move_focused_to_prev_group (self : Lanta) : Lanta :=
  move_focused_to_group self fun idx _ => if idx = 0 then none else some (idx - 1)

/-- `Lanta::rotate_crtc` advances `current_crtc` to the key after the
current one in the hash map's (unspecified) cyclic iteration order; the
choice of successor is a parameter here.  Only `current_crtc` changes; the
table itself is untouched. -/
def rotate_crtc (self : Lanta) (choice : Nat) : Lanta :=
  if self.crtc.any fun e => e.crtc == choice then
    { self with current_crtc := choice }
  else self

/-- `Lanta::remove_window` (`src/lib.rs` lines 554-578).  Note the source's
lookup `self.windows.iter().find(|w| &w.id != id)` — it finds the first
window whose id is NOT the removed one — and the focus replacement
`find(|w| w.group == window.group && &w.id != id)`; both are mirrored
verbatim.  The trailing `retain` drops the removed window. -/
def remove_window (self : Lanta) (id : Nat) : Lanta :=
  let self1 :=
    match self.windows.find? fun w => !(w.id == id) with
    | some window =>
        match self.groups.get? window.group with
        | some group =>
            if group.focused_window = some window.id then
              let new_focus :=
                (self.windows.find? fun (w : Window) =>
                  w.group == window.group && !(w.id == id)).map Window.id
              let groups2 :=
                self.groups.set window.group { group with focused_window := new_focus }
              { self with groups := groups2 }
            else self
        | none => self
    | none => self
  { self1 with windows := self1.windows.filter fun w => !(w.id == id) }

/-- `Lanta::on_crtc_change` (`src/lib.rs` lines 892-921).  A non-zero-size
report inserts a fresh output with the next unallocated group or updates a
known output's geometry in place; a zero-size report removes the output,
re-seating `current_crtc` on some remaining key (the `expect` panics —
`none` — when none remains). -/
def on_crtc_change (self : Lanta) (change : CrtcChange) : Option Lanta :=
  if 0 < change.width ∧ 0 < change.height then
    let gidx := find_next_unallocated_group self
    if self.crtc.any fun e => e.crtc == change.crtc then
      some { self with crtc := self.crtc.map fun (e : CrtcEntry) =>
               (if e.crtc == change.crtc then
                 { e with info := ⟨change.x, change.y, change.width, change.height⟩ }
               else e) }
    else
      some { self with crtc := self.crtc ++
               [⟨change.crtc, ⟨change.x, change.y, change.width, change.height⟩, gidx⟩] }
  else
    let crtc2 := self.crtc.filter fun e => !(e.crtc == change.crtc)
    if self.current_crtc = change.crtc then
      match crtc2.head? with
      | some e => some { self with crtc := crtc2, current_crtc := e.crtc }
      | none => none
    else
      some { self with crtc := crtc2 }

/-- The `self.groups.get(group_id)` lookup inside `Lanta::groupref`
(`src/lib.rs` lines 497-513); the attached
`.expect("The focused screen must have an active group")` panics when it is
`none`. -/
def groupref_group (self : Lanta) (group_id : Nat) : Option Group :=
  self.groups.get? group_id

/-- `Lanta::activate_current_groups` calls `groupref` for every entry of the
crtc table; it panics iff some entry's group id has no configured group. -/
def activate_panics (self : Lanta) : Prop :=
  ∃ e ∈ self.crtc, groupref_group self e.group = none

/-- The startup crtc table built by `Lanta::new` (`src/lib.rs` lines
383-393): drop zero-sized outputs, then zip the survivors with
`0..crtc_len`. -/
def startup_crtc (listed : List (Nat × CrtcInfo)) : List CrtcEntry :=
  let kept := listed.filter fun e => 0 < e.2.width ∧ 0 < e.2.height
  (kept.zip (List.range kept.length)).map fun e => ⟨e.1.1, e.1.2, e.2⟩

/-- The orchestrator state right after `Lanta::new` builds the table:
no managed windows yet, `current_crtc` some key of the table
(`crtc.keys().next().unwrap()`; hash-map order — modelled as the head). -/
def startup_state (groups : List Group) (listed : List (Nat × CrtcInfo)) : Lanta :=
  { groups := groups
    windows := []
    crtc := startup_crtc listed
    current_crtc := ((startup_crtc listed).head?.map CrtcEntry.crtc).getD 0 }

/-- The group-component operations quantified over by the output/group
injectivity claim. -/
inductive WMOp where
  | focusGroup (idx : Nat)
  | nextGroup
  | prevGroup
  | moveFocusedNext
  | moveFocusedPrev
  | rotateCrtc (choice : Nat)
  | crtcChange (change : CrtcChange)

/-- Apply one orchestrator operation; `none` marks a panic. -/
def applyWMOp : WMOp → Lanta → Option Lanta
  | .focusGroup idx, s => some (focus_group s idx)
  | .nextGroup, s => some (next_group s)
  | .prevGroup, s => some (prev_group s)
  | .moveFocusedNext, s => some (move_focused_to_next_group s)
  | .moveFocusedPrev, s => some (move_focused_to_prev_group s)
  | .rotateCrtc choice, s => some (rotate_crtc s choice)
  | .crtcChange change, s => on_crtc_change s change

/-- Apply a sequence of orchestrator operations left to right. -/
def applyWMOps : List WMOp → Lanta → Option Lanta
  | [], s => some s
  | op :: rest, s => (applyWMOp op s).bind (applyWMOps rest)

/-- The crtc-table invariant: keys are distinct and assigned GroupIds are
distinct (the output-assignment table is injective on its group component). -/
def CrtcInj (self : Lanta) : Prop :=
  (self.crtc.map CrtcEntry.crtc).Nodup ∧ (self.crtc.map CrtcEntry.group).Nodup

end Lanta

/-! ## List helper lemmas -/

theorem get?_set_self {T : Type} :
    ∀ (l : List T) (i : Nat) (a : T), i < l.length → (l.set i a)[i]? = some a := by
  intro l
  induction l with
  | nil => intro i a h; simp at h
  | cons x xs ih =>
      intro i a h
      cases i with
      | zero => simp [List.set]
      | succ j => simpa [List.set] using ih j a (by simpa using Nat.lt_of_succ_lt_succ h)

theorem get?_set_ne {T : Type} :
    ∀ (l : List T) (i j : Nat) (a : T), i ≠ j → (l.set i a)[j]? = l[j]? := by
  intro l
  induction l with
  | nil => intro i j a _; simp
  | cons x xs ih =>
      intro i j a hij
      cases i with
      | zero =>
          cases j with
          | zero => exact absurd rfl hij
          | succ k => simp [List.set]
      | succ i' =>
          cases j with
          | zero => simp [List.set]
          | succ k =>
              simpa [List.set] using ih i' k a (fun he => hij (by omega))

theorem set_get?_self {T : Type} :
    ∀ (l : List T) (i : Nat) (a : T), l[i]? = some a → l.set i a = l := by
  intro l
  induction l with
  | nil => intro i a h; simp at h
  | cons x xs ih =>
      intro i a h
      cases i with
      | zero => simp at h; simp [List.set, h]
      | succ j =>
          have h' : xs[j]? = some a := by simpa using h
          simp [List.set, ih j a h']

theorem get?_isSome_of_lt {T : Type} (l : List T) (i : Nat) (h : i < l.length) :
    ∃ a, l[i]? = some a := by
  cases hg : l[i]? with
  | none => exact absurd (List.getElem?_eq_none_iff.mp hg) (by omega)
  | some a => exact ⟨a, rfl⟩

theorem position_some_lt {T : Type} (p : T → Bool) :
    ∀ (l : List T) (i : Nat), Stack.position p l = some i → i < l.length := by
  intro l
  induction l with
  | nil => intro i h; simp [Stack.position] at h
  | cons x xs ih =>
      intro i h
      by_cases hx : p x
      · simp [Stack.position, hx] at h
        simp [List.length_cons]
        omega
      · simp [Stack.position, hx] at h
        obtain ⟨j, hj, rfl⟩ := h
        have := ih j hj
        simp [List.length_cons]
        omega

/-! ## Claim C7 — `shuffle_next`/`shuffle_previous` at the boundary -/

/-- Claim C7 (code bug): `shuffle_next` is claimed to be a panic-free no-op
on empty and one-element stacks, but `self.len() - 2` underflows there and
the subsequent `Vec::swap` indexes out of bounds, so the call panics
(`none`).  For stacks of at least two elements the boundary really is a
no-op, and `shuffle_previous` really is a no-op when the first element is
focused. -/
theorem c7_shuffle_boundary :
    Stack.shuffle_next (Stack.mk ([] : List Nat) 0) = none ∧
    Stack.shuffle_next (Stack.mk [42] 0) = none ∧
    Stack.shuffle_next (Stack.mk [1, 2, 3] 2) = some (Stack.mk [1, 2, 3] 2) ∧
    Stack.shuffle_previous (Stack.mk [1, 2, 3] 0) = some (Stack.mk [1, 2, 3] 0) := by
  refine ⟨?_, ?_, ?_, ?_⟩ <;> decide

/-! ## Claim C8 — `shuffle_next` then `shuffle_previous` is the identity -/

/-- Claim C8: away from the right boundary (`focused + 1 < len`),
`shuffle_next` followed by `shuffle_previous` restores the stack exactly:
same element order and the same logical element focused. -/
theorem c8_shuffle_inverse {T : Type} (s : Stack T)
    (h : s.focused + 1 < s.windows.length) :
    (Stack.shuffle_next s).bind Stack.shuffle_previous = some s := by
  obtain ⟨w, f⟩ := s
  simp only at h
  have hlen : 2 ≤ w.length := by omega
  have husub : usub w.length 2 = w.length - 2 := by
    simp [usub, hlen]
  obtain ⟨a, ha⟩ := get?_isSome_of_lt w f (by omega)
  obtain ⟨b, hb⟩ := get?_isSome_of_lt w (f + 1) h
  have hswap1 : Stack.swapIdx w f (f + 1) = some ((w.set f b).set (f + 1) a) := by
    simp only [Stack.swapIdx, List.get?_eq_getElem?]
    rw [ha, hb]
  have hnext : Stack.shuffle_next (Stack.mk w f) =
      some (Stack.mk ((w.set f b).set (f + 1) a) (f + 1)) := by
    simp only [Stack.shuffle_next, husub]
    rw [if_pos (by omega)]
    simp [hswap1]
  set l := (w.set f b).set (f + 1) a with hl
  have hlLen : l.length = w.length := by simp [hl]
  have hgetl1 : l[f + 1]? = some a := get?_set_self _ _ _ (by simp; omega)
  have hgetl0 : l[f]? = some b := by
    rw [hl, get?_set_ne _ _ _ _ (by omega)]
    exact get?_set_self _ _ _ (by omega)
  have hswap2 : Stack.swapIdx l (f + 1) f = some ((l.set (f + 1) b).set f a) := by
    simp only [Stack.swapIdx, List.get?_eq_getElem?]
    rw [hgetl1, hgetl0]
  have hprev : Stack.shuffle_previous (Stack.mk l (f + 1)) =
      some (Stack.mk ((l.set (f + 1) b).set f a) f) := by
    simp only [Stack.shuffle_previous]
    rw [if_pos (by omega)]
    simp [hswap2]
  have hback : (l.set (f + 1) b).set f a = w := by
    rw [hl, List.set_set]
    rw [List.set_comm _ _ _ (by omega : f ≠ f + 1)]
    rw [List.set_set]
    rw [set_get?_self _ _ _ hb, set_get?_self _ _ _ ha]
  rw [hnext]
  show Stack.shuffle_previous (Stack.mk l (f + 1)) = some (Stack.mk w f)
  rw [hprev, hback]

/-- Witness for C8 at the concrete stack `[10, 20]` with the first element
focused. -/
theorem c8_shuffle_inverse_witness :
    (Stack.shuffle_next (Stack.mk [10, 20] 0)).bind Stack.shuffle_previous =
      some (Stack.mk [10, 20] 0) :=
  c8_shuffle_inverse (Stack.mk [10, 20] 0) (by decide)

/-! ## Claim C6 — FocusStack order preservation and focus/emptiness -/

theorem length_eraseIdx_lt {T : Type} :
    ∀ (l : List T) (i : Nat), i < l.length → (l.eraseIdx i).length = l.length - 1 := by
  intro l
  induction l with
  | nil => intro i h; simp at h
  | cons x xs ih =>
      intro i h
      cases i with
      | zero => simp [List.eraseIdx]
      | succ j =>
          have hj : j < xs.length := by simpa using Nat.lt_of_succ_lt_succ h
          have hrec := ih j hj
          simp only [List.eraseIdx, List.length_cons, hrec]
          omega

theorem eraseIdx_sublist_self {T : Type} :
    ∀ (l : List T) (i : Nat), (l.eraseIdx i).Sublist l := by
  intro l
  induction l with
  | nil => intro i; simp [List.eraseIdx]
  | cons x xs ih =>
      intro i
      cases i with
      | zero => exact (List.Sublist.refl xs).cons x
      | succ j => exact (ih j).cons₂ x

theorem focus_next_windows {T : Type} (s : Stack T) :
    (Stack.focus_next s).windows = s.windows := by
  unfold Stack.focus_next; split <;> rfl

theorem focus_previous_windows {T : Type} (s : Stack T) :
    (Stack.focus_previous s).windows = s.windows := by
  unfold Stack.focus_previous; split <;> rfl

theorem pushedList_cons {T : Type} (op : StackOp T) (rest : List (StackOp T)) :
    pushedList (op :: rest) = pushedList [op] ++ pushedList rest := by
  cases op <;> simp [pushedList]

theorem applyStackOp_sublist {T : Type} (op : StackOp T) (s s1 : Stack T)
    (h : applyStackOp op s = some s1) :
    s1.windows.Sublist (s.windows ++ pushedList [op]) := by
  cases op with
  | push v =>
      simp only [applyStackOp] at h
      injection h with h
      subst h
      simp [Stack.push, pushedList]
  | remove p =>
      simp only [applyStackOp, Stack.remove] at h
      cases hp : Stack.position p s.windows with
      | none => rw [hp] at h; exact absurd h (by simp)
      | some pos =>
          rw [hp] at h
          injection h with h
          subst h
          simp only [pushedList, List.append_nil]
          exact eraseIdx_sublist_self s.windows pos
  | focusNext =>
      simp only [applyStackOp] at h
      injection h with h
      subst h
      simp [focus_next_windows, pushedList]
  | focusPrev =>
      simp only [applyStackOp] at h
      injection h with h
      subst h
      simp [focus_previous_windows, pushedList]

theorem applyStackOp_inv {T : Type} (op : StackOp T) (s s1 : Stack T)
    (h : applyStackOp op s = some s1) (hs : StackInv s) : StackInv s1 := by
  cases op with
  | push v =>
      simp only [applyStackOp] at h
      injection h with h
      subst h
      right
      simp [Stack.push]
  | remove p =>
      simp only [applyStackOp, Stack.remove] at h
      cases hp : Stack.position p s.windows with
      | none => rw [hp] at h; exact absurd h (by simp)
      | some pos =>
          rw [hp] at h
          injection h with h
          subst h
          have hpos := position_some_lt p s.windows pos hp
          have hlen := length_eraseIdx_lt s.windows pos hpos
          by_cases hemp : (s.windows.eraseIdx pos).length = 0
          · exact Or.inl (List.length_eq_zero.mp hemp)
          · right
            have hf : s.focused < s.windows.length := by
              rcases hs with he | hf
              · rw [he] at hpos; simp at hpos
              · exact hf
            rw [hlen] at hemp ⊢
            simp only
            split <;> omega
  | focusNext =>
      simp only [applyStackOp] at h
      injection h with h
      subst h
      unfold Stack.focus_next
      split
      · rcases hs with he | hf
        · exact Or.inl he
        · right
          rename_i hcond
          have h1 : 1 ≤ s.windows.length := by omega
          have hs1 : usub s.windows.length 1 = s.windows.length - 1 := by
            simp [usub, h1]
          rw [hs1] at hcond
          simp only
          omega
      · exact hs
  | focusPrev =>
      simp only [applyStackOp] at h
      injection h with h
      subst h
      unfold Stack.focus_previous
      split
      · rcases hs with he | hf
        · exact Or.inl he
        · right; simp only; omega
      · exact hs

theorem applyStackOps_sublist {T : Type} :
    ∀ (σ : List (StackOp T)) (s s2 : Stack T), applyStackOps σ s = some s2 →
      s2.windows.Sublist (s.windows ++ pushedList σ) := by
  intro σ
  induction σ with
  | nil =>
      intro s s2 h
      simp only [applyStackOps] at h
      injection h with h
      subst h
      simp [pushedList]
  | cons op rest ih =>
      intro s s2 h
      simp only [applyStackOps] at h
      cases hop : applyStackOp op s with
      | none => rw [hop] at h; simp at h
      | some s1 =>
          rw [hop] at h
          simp only [Option.some_bind] at h
          have h1 := applyStackOp_sublist op s s1 hop
          have h2 := ih s1 s2 h
          have h3 := h2.trans (h1.append (List.Sublist.refl (pushedList rest)))
          rwa [List.append_assoc, ← pushedList_cons] at h3

theorem applyStackOps_inv {T : Type} :
    ∀ (σ : List (StackOp T)) (s s2 : Stack T), applyStackOps σ s = some s2 →
      StackInv s → StackInv s2 := by
  intro σ
  induction σ with
  | nil =>
      intro s s2 h hs
      simp only [applyStackOps] at h
      injection h with h
      subst h
      exact hs
  | cons op rest ih =>
      intro s s2 h hs
      simp only [applyStackOps] at h
      cases hop : applyStackOp op s with
      | none => rw [hop] at h; simp at h
      | some s1 =>
          rw [hop] at h
          simp only [Option.some_bind] at h
          exact ih s1 s2 h (applyStackOp_inv op s s1 hop hs)

/-- Claim C6: for every sequence of `push`, `remove`-of-a-present-element
(`remove` of an absent element panics, excluded by the `some` hypothesis),
`focus_next` and `focus_previous` applied to an initially empty stack, the
surviving elements are a subsequence of the pushed values in push order
(relative order of never-removed elements is preserved), and `focused()` is
`none` exactly when the stack is empty. -/
theorem c6_focus_stack_invariants {T : Type} (σ : List (StackOp T)) (s2 : Stack T)
    (h : applyStackOps σ (Stack.new T) = some s2) :
    s2.windows.Sublist (pushedList σ) ∧
      (s2.focusedElem = none ↔ s2.windows = []) := by
  constructor
  · simpa [Stack.new] using applyStackOps_sublist σ (Stack.new T) s2 h
  · have hinv := applyStackOps_inv σ (Stack.new T) s2 h (Or.inl rfl)
    rcases hinv with he | hf
    · simp [Stack.focusedElem, he]
    · constructor
      · intro hn
        have hle : s2.windows.length ≤ s2.focused := by
          simpa using List.get?_eq_none.mp hn
        omega
      · intro he
        rw [he] at hf
        simp at hf

/-- Witness for C6: the sequence push 1, push 2, push 3, remove 2,
focus_previous produces the stack `[1, 3]` with element 1 focused. -/
theorem c6_focus_stack_invariants_witness :
    (Stack.mk [1, 3] 0 : Stack Nat).windows.Sublist
      (pushedList [StackOp.push 1, StackOp.push 2, StackOp.push 3,
        StackOp.remove (fun v => v == 2), StackOp.focusPrev]) ∧
      ((Stack.mk [1, 3] 0 : Stack Nat).focusedElem = none ↔
        (Stack.mk [1, 3] 0 : Stack Nat).windows = []) :=
  c6_focus_stack_invariants
    [StackOp.push 1, StackOp.push 2, StackOp.push 3,
      StackOp.remove (fun v => v == 2), StackOp.focusPrev]
    (Stack.mk [1, 3] 0) (by decide)

/-! ## Claims C4, C5 — `Viewport::without_strut` -/

theorem add32_eq {a b : Nat} (h : a + b < U32) : add32 a b = a + b := by
  simp only [add32]
  exact Nat.mod_eq_of_lt h

theorem sub32_eq {a b : Nat} (h : b ≤ a) : sub32 a b = a - b := by
  simp [sub32, h]

/-- Claim C4 (counterexample): the repository's own regression input — a
bottom strut spanning x `0..2559` against the lower monitor `x 0..1920`,
`y 1440..2720`.  The strut's horizontal extent overlaps the viewport's
horizontal span (partially: it sticks out to the right), yet the viewport is
returned unchanged, because the code tests containment
(`bottom_start_x >= left && bottom_end_x <= right`), not overlap. -/
theorem c4_overlap_counterexample :
    (Viewport.mk 0 1440 1920 1280).without_strut 2560 2720
        (Strut.mk 0 0 0 1315 0 0 0 0 0 0 0 2559) =
      Viewport.mk 0 1440 1920 1280 ∧
    (Strut.mk 0 0 0 1315 0 0 0 0 0 0 0 2559).bottom_start_x ≤
        (Viewport.mk 0 1440 1920 1280).x + (Viewport.mk 0 1440 1920 1280).width ∧
    (Viewport.mk 0 1440 1920 1280).x ≤
        (Strut.mk 0 0 0 1315 0 0 0 0 0 0 0 2559).bottom_end_x ∧
    ¬ ((Strut.mk 0 0 0 1315 0 0 0 0 0 0 0 2559).bottom_end_x ≤
        (Viewport.mk 0 1440 1920 1280).x + (Viewport.mk 0 1440 1920 1280).width) := by
  refine ⟨?_, ?_, ?_, ?_⟩ <;> decide

/-- Claim C4 (amended): a full per-margin characterization — each of the
four margins applies if and only if it is positive and the dock's extent is
*contained* in the corresponding span, where the left/right margins are
tested against the viewport's original vertical span and the top/bottom
margins against the horizontal span *as already clamped* by the left/right
margins: the left edge becomes `max x strut.left` exactly when the left
condition holds and stays `x` otherwise; the width is the (wrapping)
distance from the clamped left edge to the right edge, which is pulled in
to `min (x+width) (screen_width - strut.right)` exactly when the right
condition holds; the top edge becomes `min y strut.top` exactly when the
top condition holds against the clamped span; the height is the distance
from the clamped top edge to the bottom edge, pulled in to
`min (y+height) (screen_height - strut.bottom)` exactly when the bottom
condition holds against the clamped span.  Mere overlap — including
partial overlap — never satisfies a containment condition, so it leaves
that edge unchanged. -/
theorem c4_without_strut_containment (vp : Viewport) (sw sh : Nat) (st : Strut)
    (hx : vp.x + vp.width < U32) (hy : vp.y + vp.height < U32) :
    (vp.without_strut sw sh st).x =
      (if 0 < st.left ∧ vp.y ≤ st.left_start_y ∧ st.left_end_y ≤ vp.y + vp.height
       then max vp.x st.left else vp.x) ∧
    (vp.without_strut sw sh st).width =
      sub32
        (if 0 < st.right ∧ vp.y ≤ st.right_start_y ∧ st.right_end_y ≤ vp.y + vp.height
         then min (vp.x + vp.width) (sub32 sw st.right) else vp.x + vp.width)
        (vp.without_strut sw sh st).x ∧
    (vp.without_strut sw sh st).y =
      (if 0 < st.top ∧ (vp.without_strut sw sh st).x ≤ st.top_start_x ∧
          st.top_end_x ≤
            (if 0 < st.right ∧ vp.y ≤ st.right_start_y ∧ st.right_end_y ≤ vp.y + vp.height
             then min (vp.x + vp.width) (sub32 sw st.right) else vp.x + vp.width)
       then min vp.y st.top else vp.y) ∧
    (vp.without_strut sw sh st).height =
      sub32
        (if 0 < st.bottom ∧ (vp.without_strut sw sh st).x ≤ st.bottom_start_x ∧
            st.bottom_end_x ≤
              (if 0 < st.right ∧ vp.y ≤ st.right_start_y ∧ st.right_end_y ≤ vp.y + vp.height
               then min (vp.x + vp.width) (sub32 sw st.right) else vp.x + vp.width)
         then min (vp.y + vp.height) (sub32 sh st.bottom) else vp.y + vp.height)
        (vp.without_strut sw sh st).y := by
  obtain ⟨x, y, w, h⟩ := vp
  simp only at hx hy
  simp only [Viewport.without_strut, add32_eq hx, add32_eq hy]
  refine ⟨?_, ?_, ?_, ?_⟩ <;> first | rfl | trivial

/-- Witness for C4 at the repository's regression input (bottom strut with
a partially overlapping horizontal range on the lower monitor). -/
theorem c4_without_strut_containment_witness :
    ((Viewport.mk 0 1440 1920 1280).without_strut 2560 2720 (Strut.mk 0 0 0 1315 0 0 0 0 0 0 0 2559)).x =
      (if 0 < (Strut.mk 0 0 0 1315 0 0 0 0 0 0 0 2559).left ∧ (Viewport.mk 0 1440 1920 1280).y ≤ (Strut.mk 0 0 0 1315 0 0 0 0 0 0 0 2559).left_start_y ∧ (Strut.mk 0 0 0 1315 0 0 0 0 0 0 0 2559).left_end_y ≤ (Viewport.mk 0 1440 1920 1280).y + (Viewport.mk 0 1440 1920 1280).height
       then max (Viewport.mk 0 1440 1920 1280).x (Strut.mk 0 0 0 1315 0 0 0 0 0 0 0 2559).left else (Viewport.mk 0 1440 1920 1280).x) ∧
    ((Viewport.mk 0 1440 1920 1280).without_strut 2560 2720 (Strut.mk 0 0 0 1315 0 0 0 0 0 0 0 2559)).width =
      sub32
        (if 0 < (Strut.mk 0 0 0 1315 0 0 0 0 0 0 0 2559).right ∧ (Viewport.mk 0 1440 1920 1280).y ≤ (Strut.mk 0 0 0 1315 0 0 0 0 0 0 0 2559).right_start_y ∧ (Strut.mk 0 0 0 1315 0 0 0 0 0 0 0 2559).right_end_y ≤ (Viewport.mk 0 1440 1920 1280).y + (Viewport.mk 0 1440 1920 1280).height
         then min ((Viewport.mk 0 1440 1920 1280).x + (Viewport.mk 0 1440 1920 1280).width) (sub32 2560 (Strut.mk 0 0 0 1315 0 0 0 0 0 0 0 2559).right) else (Viewport.mk 0 1440 1920 1280).x + (Viewport.mk 0 1440 1920 1280).width)
        ((Viewport.mk 0 1440 1920 1280).without_strut 2560 2720 (Strut.mk 0 0 0 1315 0 0 0 0 0 0 0 2559)).x ∧
    ((Viewport.mk 0 1440 1920 1280).without_strut 2560 2720 (Strut.mk 0 0 0 1315 0 0 0 0 0 0 0 2559)).y =
      (if 0 < (Strut.mk 0 0 0 1315 0 0 0 0 0 0 0 2559).top ∧ ((Viewport.mk 0 1440 1920 1280).without_strut 2560 2720 (Strut.mk 0 0 0 1315 0 0 0 0 0 0 0 2559)).x ≤ (Strut.mk 0 0 0 1315 0 0 0 0 0 0 0 2559).top_start_x ∧
          (Strut.mk 0 0 0 1315 0 0 0 0 0 0 0 2559).top_end_x ≤
            (if 0 < (Strut.mk 0 0 0 1315 0 0 0 0 0 0 0 2559).right ∧ (Viewport.mk 0 1440 1920 1280).y ≤ (Strut.mk 0 0 0 1315 0 0 0 0 0 0 0 2559).right_start_y ∧ (Strut.mk 0 0 0 1315 0 0 0 0 0 0 0 2559).right_end_y ≤ (Viewport.mk 0 1440 1920 1280).y + (Viewport.mk 0 1440 1920 1280).height
             then min ((Viewport.mk 0 1440 1920 1280).x + (Viewport.mk 0 1440 1920 1280).width) (sub32 2560 (Strut.mk 0 0 0 1315 0 0 0 0 0 0 0 2559).right) else (Viewport.mk 0 1440 1920 1280).x + (Viewport.mk 0 1440 1920 1280).width)
       then min (Viewport.mk 0 1440 1920 1280).y (Strut.mk 0 0 0 1315 0 0 0 0 0 0 0 2559).top else (Viewport.mk 0 1440 1920 1280).y) ∧
    ((Viewport.mk 0 1440 1920 1280).without_strut 2560 2720 (Strut.mk 0 0 0 1315 0 0 0 0 0 0 0 2559)).height =
      sub32
        (if 0 < (Strut.mk 0 0 0 1315 0 0 0 0 0 0 0 2559).bottom ∧ ((Viewport.mk 0 1440 1920 1280).without_strut 2560 2720 (Strut.mk 0 0 0 1315 0 0 0 0 0 0 0 2559)).x ≤ (Strut.mk 0 0 0 1315 0 0 0 0 0 0 0 2559).bottom_start_x ∧
            (Strut.mk 0 0 0 1315 0 0 0 0 0 0 0 2559).bottom_end_x ≤
              (if 0 < (Strut.mk 0 0 0 1315 0 0 0 0 0 0 0 2559).right ∧ (Viewport.mk 0 1440 1920 1280).y ≤ (Strut.mk 0 0 0 1315 0 0 0 0 0 0 0 2559).right_start_y ∧ (Strut.mk 0 0 0 1315 0 0 0 0 0 0 0 2559).right_end_y ≤ (Viewport.mk 0 1440 1920 1280).y + (Viewport.mk 0 1440 1920 1280).height
               then min ((Viewport.mk 0 1440 1920 1280).x + (Viewport.mk 0 1440 1920 1280).width) (sub32 2560 (Strut.mk 0 0 0 1315 0 0 0 0 0 0 0 2559).right) else (Viewport.mk 0 1440 1920 1280).x + (Viewport.mk 0 1440 1920 1280).width)
         then min ((Viewport.mk 0 1440 1920 1280).y + (Viewport.mk 0 1440 1920 1280).height) (sub32 2720 (Strut.mk 0 0 0 1315 0 0 0 0 0 0 0 2559).bottom) else (Viewport.mk 0 1440 1920 1280).y + (Viewport.mk 0 1440 1920 1280).height)
        ((Viewport.mk 0 1440 1920 1280).without_strut 2560 2720 (Strut.mk 0 0 0 1315 0 0 0 0 0 0 0 2559)).y :=
  c4_without_strut_containment (Viewport.mk 0 1440 1920 1280) 2560 2720
    (Strut.mk 0 0 0 1315 0 0 0 0 0 0 0 2559) (by decide) (by decide)

/-- Claim C5 (counterexample): two refutations at concrete inputs.  (i) A
contained left strut of 200 on the viewport `x 0..100` makes
`right - left = 100 - 200` underflow: the resulting width is `2^32 - 100`,
far wider than the whole screen — the rectangle inverted.  (ii) A contained
top strut of 35 on a viewport starting at `y = 100` moves the top edge *up*
to 35 (the code clamps the top edge with `cmp::min`), not down to at least
`strut.top` as claimed. -/
theorem c5_clamp_counterexample :
    ((Viewport.mk 0 0 100 100).without_strut 1000 1000
        (Strut.mk 200 0 0 0 0 100 0 0 0 0 0 0)).width = U32 - 100 ∧
    1000 < ((Viewport.mk 0 0 100 100).without_strut 1000 1000
        (Strut.mk 200 0 0 0 0 100 0 0 0 0 0 0)).width ∧
    ((Viewport.mk 0 100 100 100).without_strut 1000 1000
        (Strut.mk 0 0 35 0 0 0 0 0 0 100 0 0)).y = 35 ∧
    ((Viewport.mk 0 100 100 100).without_strut 1000 1000
        (Strut.mk 0 0 35 0 0 0 0 0 0 100 0 0)).y < 100 := by
  refine ⟨?_, ?_, ?_, ?_⟩ <;> decide

/-- Claim C5 (amended): under the natural side conditions that the struts
fit the screen and do not pass the viewport's far edge
(`strut.left <= x + width`, `x + strut.right <= screen_width`,
`strut.left + strut.right <= screen_width`, `y + strut.bottom <=
screen_height`), the rectangle never inverts: the left edge only moves
right (within the original right edge), the right and bottom edges only move
inward, and the resulting `x + width` / `y + height` stay within the
original extent.  The top edge, however, clamps with `min`: it only moves
*up* (`result.y <= y`), diverging from the claimed downward clamp. -/
theorem c5_without_strut_no_inversion (vp : Viewport) (sw sh : Nat) (st : Strut)
    (hx : vp.x + vp.width < U32) (hy : vp.y + vp.height < U32)
    (hfitL : st.left ≤ vp.x + vp.width)
    (hfitR : vp.x + st.right ≤ sw)
    (hfitLR : st.left + st.right ≤ sw)
    (hfitB : vp.y + st.bottom ≤ sh) :
    vp.x ≤ (vp.without_strut sw sh st).x ∧
    (vp.without_strut sw sh st).x + (vp.without_strut sw sh st).width ≤ vp.x + vp.width ∧
    (vp.without_strut sw sh st).y ≤ vp.y ∧
    (vp.without_strut sw sh st).y + (vp.without_strut sw sh st).height ≤ vp.y + vp.height := by
  obtain ⟨x, y, w, h⟩ := vp
  simp only at hx hy hfitL hfitR hfitLR hfitB
  have hsubR : sub32 sw st.right = sw - st.right := sub32_eq (by omega)
  have hsubB : sub32 sh st.bottom = sh - st.bottom := sub32_eq (by omega)
  simp only [Viewport.without_strut, add32_eq hx, add32_eq hy, hsubR, hsubB]
  split_ifs <;>
    refine ⟨?_, ?_, ?_, ?_⟩ <;>
    first
      | omega
      | (rw [sub32_eq (by omega)]; omega)

/-- Witness for C5 at the repository's bottom-strut regression input (top
monitor): the clamped viewport is `0,0,2560,1405`, inside the original. -/
theorem c5_without_strut_no_inversion_witness :
    (Viewport.mk 0 0 2560 1440).x ≤
      ((Viewport.mk 0 0 2560 1440).without_strut 2560 2720
        (Strut.mk 0 0 0 1315 0 0 0 0 0 0 0 2559)).x ∧
    ((Viewport.mk 0 0 2560 1440).without_strut 2560 2720
        (Strut.mk 0 0 0 1315 0 0 0 0 0 0 0 2559)).x +
      ((Viewport.mk 0 0 2560 1440).without_strut 2560 2720
        (Strut.mk 0 0 0 1315 0 0 0 0 0 0 0 2559)).width ≤
      (Viewport.mk 0 0 2560 1440).x + (Viewport.mk 0 0 2560 1440).width ∧
    ((Viewport.mk 0 0 2560 1440).without_strut 2560 2720
        (Strut.mk 0 0 0 1315 0 0 0 0 0 0 0 2559)).y ≤ (Viewport.mk 0 0 2560 1440).y ∧
    ((Viewport.mk 0 0 2560 1440).without_strut 2560 2720
        (Strut.mk 0 0 0 1315 0 0 0 0 0 0 0 2559)).y +
      ((Viewport.mk 0 0 2560 1440).without_strut 2560 2720
        (Strut.mk 0 0 0 1315 0 0 0 0 0 0 0 2559)).height ≤
      (Viewport.mk 0 0 2560 1440).y + (Viewport.mk 0 0 2560 1440).height :=
  c5_without_strut_no_inversion (Viewport.mk 0 0 2560 1440) 2560 2720
    (Strut.mk 0 0 0 1315 0 0 0 0 0 0 0 2559)
    (by decide) (by decide) (by decide) (by decide) (by decide) (by decide)

/-! ## Claim C1 — `ThreeColumn` remainder-2 distribution -/

theorem take_drop_partition {T : Type} (l : List T) (a b : Nat) :
    l.take a ++ ((l.drop a).take b ++ (l.drop (a + b)).take (l.length - (a + b))) = l := by
  have h1 : (l.drop (a + b)).take (l.length - (a + b)) = l.drop (a + b) :=
    List.take_of_length_le (by simp [List.length_drop])
  rw [h1]
  have h2 : l.drop (a + b) = (l.drop a).drop b := (List.drop_drop b a l).symm
  rw [h2, List.take_append_drop, List.take_append_drop]

/-- Claim C1 (counterexample): for `n = 8` (remainder 2) the three columns
have sizes `{3, 2, 3}` — the first and *third* columns get the extra
window, not the first two — so the middle column of the computed layout
(the one at `x = 4` for a width-10 viewport with padding 2) holds 2 windows
where the claim demands 3. -/
theorem c1_three_column_counterexample :
    (threeColumnCols (Stack.mk [0, 1, 2, 3, 4, 5, 6, 7] 0 : Stack Nat)).map List.length =
        [3, 2, 3] ∧
    (((ThreeColumn.mk "three" 2).layout (Viewport.mk 0 0 10 9)
          (Stack.mk [0, 1, 2, 3, 4, 5, 6, 7] 0)).filter
        (fun m => m.vp.x == 4)).length = 2 ∧
    ([3, 2, 3] : List Nat) ≠ [3, 3, 2] := by
  refine ⟨?_, ?_, ?_⟩ <;> decide

/-- Claim C1 (amended): for `n >= 3` with `n mod 3 = 2`, `ThreeColumn`
partitions the stack, in stack order, into columns of sizes
`{ceil(n/3), floor(n/3), ceil(n/3)}`: the first and third columns each
receive one extra window; the concatenation of the columns is the window
stack itself.  (For `n = 8` the sizes are `{3, 2, 3}`.) -/
theorem c1_three_column_leftover2 {T : Type} (s : Stack T) (n : Nat)
    (hn : s.windows.length = n) (h3 : 3 ≤ n) (hmod : n % 3 = 2) :
    (threeColumnCols s).map List.length = [n / 3 + 1, n / 3, n / 3 + 1] ∧
    (threeColumnCols s).flatten = s.windows := by
  have hleft : s.windows.length - 3 * (s.windows.length / 3) = 2 := by omega
  have hw : s.windows.length / 3 = n / 3 := by rw [hn]
  constructor
  · simp only [threeColumnCols, hleft]
    simp only [Stack.slice, List.map_cons, List.map_nil, List.length_take,
      List.length_drop]
    simp only [hn, hw, List.cons.injEq, and_true]
    omega
  · simp only [threeColumnCols, hleft]
    simp only [Stack.slice]
    have e1 : 2 * (s.windows.length / 3) + 1 - (s.windows.length / 3 + 1) =
        s.windows.length / 3 := by omega
    have e2 : 2 * (s.windows.length / 3) + 1 =
        (s.windows.length / 3 + 1) + s.windows.length / 3 := by omega
    simp only [List.flatten, List.append_nil, Nat.sub_zero, List.drop_zero, e1]
    rw [e2]
    exact take_drop_partition s.windows (s.windows.length / 3 + 1) (s.windows.length / 3)

/-- Witness for C1 at the eight-element stack. -/
theorem c1_three_column_leftover2_witness :
    (threeColumnCols (Stack.mk [0, 1, 2, 3, 4, 5, 6, 7] 0 : Stack Nat)).map List.length =
        [8 / 3 + 1, 8 / 3, 8 / 3 + 1] ∧
    (threeColumnCols (Stack.mk [0, 1, 2, 3, 4, 5, 6, 7] 0 : Stack Nat)).flatten =
      (Stack.mk [0, 1, 2, 3, 4, 5, 6, 7] 0 : Stack Nat).windows :=
  c1_three_column_leftover2 (Stack.mk [0, 1, 2, 3, 4, 5, 6, 7] 0) 8
    (by decide) (by decide) (by decide)

/-! ## Claim C9 — equal-column `TiledLayout` -/

/-- Claim C9 (counterexample): three refutations at concrete inputs.
(i) On the empty stack `TiledLayout::layout` divides by `stack.len() = 0`
and panics instead of producing zero placements.  (ii) For 2 windows on a
width-10 viewport with padding 1 the integer division drops the remainder:
the widths plus the `n + 1` padding gaps sum to 9, not the viewport width
10.  (iii) With padding 5 on a width-1 viewport the `width - padding`
subtraction wraps, producing a `2^32 - 9` wide placement. -/
theorem c9_tiled_counterexample :
    (TiledLayout.mk "tiled" 1).layout (Viewport.mk 0 0 10 8)
        (Stack.mk ([] : List Nat) 0) = none ∧
    ((((TiledLayout.mk "tiled" 1).layout (Viewport.mk 0 0 10 8)
          (Stack.mk [1, 2] 0)).getD []).map (fun m => m.vp.width)).sum +
        (2 + 1) * 1 = 9 ∧
    (9 : Nat) ≠ 10 ∧
    ((((TiledLayout.mk "t" 5).layout (Viewport.mk 0 0 1 3)
          (Stack.mk [7] 0)).getD []).map (fun m => m.vp.width)) = [U32 - 9] := by
  refine ⟨?_, ?_, ?_, ?_⟩ <;> decide

/-- Claim C9 (amended): for `n >= 1` windows, with the padding fitting the
viewport (`padding <= width` and `padding <= (width - padding) / n`, so no
subtraction wraps), the layout produces exactly `n` placements, all sharing
the height `height - 2 * padding`, and the widths plus the `n + 1` padding
gaps sum to the viewport width *minus the division remainder*
`(width - padding) mod n` — the width is matched exactly only when `n`
divides `width - padding`. -/
theorem c9_tiled_equal_columns {T : Type} (l : TiledLayout) (vp : Viewport)
    (s : Stack T) (n : Nat) (hn : s.windows.length = n) (h1 : 1 ≤ n)
    (hp : l.padding ≤ vp.width)
    (hpw : l.padding ≤ (vp.width - l.padding) / n) :
    ∃ out, l.layout vp s = some out ∧
      out.length = n ∧
      out.map (fun m => m.vp.height) =
        List.replicate n (sub32 vp.height (mul32 l.padding 2)) ∧
      (out.map (fun m => m.vp.width)).sum + (n + 1) * l.padding =
        vp.width - (vp.width - l.padding) % n := by
  have hzero : ¬ s.windows.length = 0 := by omega
  have hsubW : sub32 vp.width l.padding = vp.width - l.padding := sub32_eq hp
  have htw : sub32 (sub32 vp.width l.padding / s.windows.length) l.padding =
      (vp.width - l.padding) / n - l.padding := by
    rw [hsubW, hn]
    exact sub32_eq hpw
  set tw := sub32 (sub32 vp.width l.padding / s.windows.length) l.padding with htwdef
  have hout : l.layout vp s = some (s.windows.enum.map (l.place vp tw)) := by
    simp only [TiledLayout.layout]
    rw [if_neg hzero]
  refine ⟨_, hout, ?_, ?_, ?_⟩
  · simp [List.enum_length, hn]
  · have hcomp : ((fun m : MappedWindow T => m.vp.height) ∘ l.place vp tw) =
        (fun _ : Nat × T => sub32 vp.height (mul32 l.padding 2)) := rfl
    rw [List.map_map, hcomp, List.map_const', List.enum_length, hn]
  · have hcomp : ((fun m : MappedWindow T => m.vp.width) ∘ l.place vp tw) =
        (fun _ : Nat × T => tw) := rfl
    rw [List.map_map, hcomp, List.map_const', List.enum_length, hn,
      List.sum_replicate, smul_eq_mul, htw]
    set W := vp.width
    set p := l.padding
    set q := (W - p) / n with hq
    have hdm : n * q + (W - p) % n = W - p := Nat.div_add_mod (W - p) n
    obtain ⟨d, hd⟩ : ∃ d, q = p + d := ⟨q - p, by omega⟩
    rw [hd] at hdm ⊢
    rw [Nat.mul_add] at hdm
    have hqd : p + d - p = d := by omega
    rw [hqd, Nat.add_mul, Nat.one_mul]
    generalize n * p = A at hdm ⊢
    generalize n * d = B at hdm ⊢
    omega

/-- Witness for C9 at three windows on a width-10 viewport with padding 1:
three placements of width 2 and height 6; `6 + 4*1 = 10 - 0`. -/
theorem c9_tiled_equal_columns_witness :
    ∃ out, (TiledLayout.mk "tiled" 1).layout (Viewport.mk 0 0 10 8)
        (Stack.mk [5, 6, 7] 0 : Stack Nat) = some out ∧
      out.length = 3 ∧
      out.map (fun m => m.vp.height) =
        List.replicate 3 (sub32 (Viewport.mk 0 0 10 8).height
          (mul32 (TiledLayout.mk "tiled" 1).padding 2)) ∧
      (out.map (fun m => m.vp.width)).sum + (3 + 1) * (TiledLayout.mk "tiled" 1).padding =
        (Viewport.mk 0 0 10 8).width -
          ((Viewport.mk 0 0 10 8).width - (TiledLayout.mk "tiled" 1).padding) % 3 :=
  c9_tiled_equal_columns (TiledLayout.mk "tiled" 1) (Viewport.mk 0 0 10 8)
    (Stack.mk [5, 6, 7] 0) 3 (by decide) (by decide) (by decide) (by decide)

/-! ## Claim C2 — `Lanta::remove_window` and group focus -/

theorem find?_ne_group_find (id : Nat) :
    ∀ (l : List Window) (w : Window),
      (l.find? fun v => !(v.id == id)) = some w →
      (l.find? fun v => v.group == w.group && !(v.id == id)) = some w := by
  intro l
  induction l with
  | nil => intro w h; simp [List.find?] at h
  | cons a as ih =>
      intro w h
      by_cases ha : a.id = id
      · rw [List.find?_cons_of_neg _ (by simp [ha])] at h
        rw [List.find?_cons_of_neg _ (by simp [ha])]
        exact ih w h
      · rw [List.find?_cons_of_pos _ (by simp [ha])] at h
        injection h with h
        subst h
        rw [List.find?_cons_of_pos _ (by simp [ha])]

/-- Claim C2 (amended): `remove_window` only removes the window from the
window list; it never changes any group's `focused_window`.  The lookup
`self.windows.iter().find(|w| &w.id != id)` finds the first *surviving*
window, and the focus-shift branch can then only fire when that window is
its group's focus, re-assigning the very same value.  In particular, when
the removed window was the group's focused window, `focused_window` is left
pointing at the removed window — focus does not shift to any remaining
window. -/
theorem c2_remove_window_no_focus_shift (st : Lanta) (id : Nat) :
    Lanta.remove_window st id =
      { st with windows := st.windows.filter fun w => !(w.id == id) } := by
  simp only [Lanta.remove_window]
  split
  · rename_i window hfind
    split
    · rename_i group hget
      split
      · rename_i hfoc
        rw [find?_ne_group_find id st.windows window hfind]
        simp only [Option.map_some']
        have hgrp : { group with focused_window := some window.id } = group := by
          rw [← hfoc]
        rw [hgrp]
        have hget' : st.groups[window.group]? = some group := by
          simpa using hget
        rw [set_get?_self st.groups window.group group hget']
      · rfl
    · rfl
  · rfl

/-- Claim C2 (counterexample): two windows 1 and 2 in group 0, window 2
focused.  Removing window 2 leaves the group's `focused_window` at
`some 2` — the removed window — instead of shifting it to the remaining
predecessor, window 1. -/
theorem c2_remove_focused_counterexample :
    (Lanta.remove_window
        (Lanta.mk [Group.mk "a" 0 (some 2)] [Window.mk 1 0, Window.mk 2 0] [] 0)
        2).groups.map Group.focused_window = [some 2] ∧
    (Lanta.remove_window
        (Lanta.mk [Group.mk "a" 0 (some 2)] [Window.mk 1 0, Window.mk 2 0] [] 0)
        2).windows = [Window.mk 1 0] ∧
    (some 2 : Option Nat) ≠ some 1 := by
  refine ⟨?_, ?_, ?_⟩ <;> decide

/-! ## Claim C10 — hot-plugging past the configured groups -/

theorem filter_ge_mono (gs : List Nat) (k : Nat) :
    (gs.filter fun x => decide (k + 1 ≤ x)).length ≤
      (gs.filter fun x => decide (k ≤ x)).length := by
  induction gs with
  | nil => simp
  | cons a as ih =>
      by_cases h1 : k + 1 ≤ a
      · have h2 : k ≤ a := by omega
        rw [List.filter_cons, List.filter_cons, if_pos (by simp [h1]), if_pos (by simp [h2])]
        simp only [List.length_cons]
        omega
      · by_cases h2 : k ≤ a
        · rw [List.filter_cons, List.filter_cons, if_neg (by simp [h1]), if_pos (by simp [h2])]
          simp only [List.length_cons]
          omega
        · rw [List.filter_cons, List.filter_cons, if_neg (by simp [h1]), if_neg (by simp [h2])]
          exact ih

theorem filter_ge_strict (gs : List Nat) (k : Nat) (hk : k ∈ gs) :
    (gs.filter fun x => decide (k + 1 ≤ x)).length <
      (gs.filter fun x => decide (k ≤ x)).length := by
  induction gs with
  | nil => simp at hk
  | cons a as ih =>
      rcases List.mem_cons.mp hk with rfl | hk2
      · have h1 : ¬ (k + 1 ≤ k) := by omega
        have hmono := filter_ge_mono as k
        rw [List.filter_cons, List.filter_cons, if_neg (by simp [h1]),
          if_pos (by simp : ((fun x => decide (k ≤ x)) k) = true)]
        simp only [List.length_cons]
        omega
      · by_cases h1 : k + 1 ≤ a
        · have h2 : k ≤ a := by omega
          have hrec := ih hk2
          rw [List.filter_cons, List.filter_cons, if_pos (by simp [h1]), if_pos (by simp [h2])]
          simp only [List.length_cons]
          omega
        · by_cases h2 : k ≤ a
          · have hmono := filter_ge_mono as k
            have hrec := ih hk2
            rw [List.filter_cons, List.filter_cons, if_neg (by simp [h1]),
              if_pos (by simp [h2])]
            simp only [List.length_cons]
            omega
          · rw [List.filter_cons, List.filter_cons, if_neg (by simp [h1]),
              if_neg (by simp [h2])]
            exact ih hk2

theorem findFrom_spec (gs : List Nat) :
    ∀ (fuel k : Nat), (gs.filter fun x => decide (k ≤ x)).length < fuel →
      Lanta.findFrom gs fuel k ∉ gs ∧
      k ≤ Lanta.findFrom gs fuel k ∧
      ∀ m, k ≤ m → m < Lanta.findFrom gs fuel k → m ∈ gs := by
  intro fuel
  induction fuel with
  | zero => intro k h; simp at h
  | succ f ih =>
      intro k h
      simp only [Lanta.findFrom]
      by_cases hk : k ∈ gs
      · rw [if_pos hk]
        have hcount := filter_ge_strict gs k hk
        obtain ⟨h1, h2, h3⟩ := ih (k + 1) (by omega)
        refine ⟨h1, by omega, ?_⟩
        intro m hm1 hm2
        by_cases hmk : m = k
        · exact hmk ▸ hk
        · exact h3 m (by omega) hm2
      · rw [if_neg hk]
        exact ⟨hk, le_refl k, fun m hm1 hm2 => absurd hm2 (by omega)⟩

theorem find_next_unallocated_group_spec (st : Lanta) :
    Lanta.find_next_unallocated_group st ∉ st.crtc.map CrtcEntry.group ∧
    ∀ m, m < Lanta.find_next_unallocated_group st →
      m ∈ st.crtc.map CrtcEntry.group := by
  have hlen : ((st.crtc.map CrtcEntry.group).filter fun x => decide (0 ≤ x)).length <
      (st.crtc.map CrtcEntry.group).length + 1 :=
    Nat.lt_succ_of_le (List.length_filter_le _ _)
  obtain ⟨h1, _, h3⟩ := findFrom_spec (st.crtc.map CrtcEntry.group)
    ((st.crtc.map CrtcEntry.group).length + 1) 0 hlen
  exact ⟨h1, fun m hm => h3 m (Nat.zero_le m) hm⟩

/-- Claim C10: when a non-zero-size change report arrives for a
previously-unknown output while every configured GroupId (each
`g < groups.len()`) is already assigned to some output,
`find_next_unallocated_group` — bounded only by the assigned ids — hands the
new output a GroupId at or beyond `groups.len()`; `groups.get(group_id)` for
the new entry is `None`, so the `expect` inside `groupref` panics at the
next reconciliation: hot-plugging more outputs than configured groups
crashes the process. -/
theorem c10_hotplug_beyond_groups_panics (st : Lanta) (change : CrtcChange)
    (hfresh : ∀ e ∈ st.crtc, e.crtc ≠ change.crtc)
    (hfull : ∀ g, g < st.groups.length → g ∈ st.crtc.map CrtcEntry.group)
    (hw : 0 < change.width) (hh : 0 < change.height) :
    ∃ st2, Lanta.on_crtc_change st change = some st2 ∧
      (∃ e ∈ st2.crtc, e.crtc = change.crtc ∧
        st.groups.length ≤ e.group ∧ Lanta.groupref_group st2 e.group = none) ∧
      Lanta.activate_panics st2 := by
  have hany : (st.crtc.any fun e => e.crtc == change.crtc) = false := by
    simp only [List.any_eq_false]
    intro e he
    simpa using hfresh e he
  obtain ⟨hnomem, hleast⟩ := find_next_unallocated_group_spec st
  set gidx := Lanta.find_next_unallocated_group st with hgidx
  have hge : st.groups.length ≤ gidx := by
    by_contra hlt
    exact hnomem (hfull gidx (by omega))
  have hout : Lanta.on_crtc_change st change =
      some { st with crtc := st.crtc ++
        [⟨change.crtc, ⟨change.x, change.y, change.width, change.height⟩, gidx⟩] } := by
    simp only [Lanta.on_crtc_change]
    rw [if_pos ⟨hw, hh⟩]
    rw [if_neg (by simp [hany])]
  refine ⟨_, hout, ?_, ?_⟩
  · refine ⟨⟨change.crtc, ⟨change.x, change.y, change.width, change.height⟩, gidx⟩,
      by simp, rfl, hge, ?_⟩
    simp only [Lanta.groupref_group]
    exact List.get?_eq_none.mpr hge
  · refine ⟨⟨change.crtc, ⟨change.x, change.y, change.width, change.height⟩, gidx⟩,
      by simp, ?_⟩
    simp only [Lanta.groupref_group]
    exact List.get?_eq_none.mpr hge

/-- Witness for C10: one configured group, one output holding it; a
1x1-sized report for unknown output 1 allocates GroupId 1, past the single
configured group. -/
theorem c10_hotplug_beyond_groups_panics_witness :
    ∃ st2, Lanta.on_crtc_change
        (Lanta.mk [Group.mk "a" 0 none] [] [CrtcEntry.mk 0 (CrtcInfo.mk 0 0 1 1) 0] 0)
        (CrtcChange.mk 1 0 0 1 1) = some st2 ∧
      (∃ e ∈ st2.crtc, e.crtc = (CrtcChange.mk 1 0 0 1 1).crtc ∧
        (Lanta.mk [Group.mk "a" 0 none] [] [CrtcEntry.mk 0 (CrtcInfo.mk 0 0 1 1) 0]
            0).groups.length ≤ e.group ∧
        Lanta.groupref_group st2 e.group = none) ∧
      Lanta.activate_panics st2 :=
  c10_hotplug_beyond_groups_panics
    (Lanta.mk [Group.mk "a" 0 none] [] [CrtcEntry.mk 0 (CrtcInfo.mk 0 0 1 1) 0] 0)
    (CrtcChange.mk 1 0 0 1 1)
    (by intro e he; simp at he; subst he; decide)
    (by intro g hg; simp at hg; subst hg; decide)
    (by decide) (by decide)

/-! ## Claim C3 — output/group injectivity of the crtc table -/

theorem swap_gids_nodup (l : List CrtcEntry) (cur old idx : Nat)
    (hkeys : (l.map CrtcEntry.crtc).Nodup)
    (hgids : (l.map CrtcEntry.group).Nodup)
    (e0 : CrtcEntry) (he0 : e0 ∈ l) (he0k : e0.crtc = cur) (he0g : e0.group = old)
    (hne : old ≠ idx) :
    (((l.map fun (e : CrtcEntry) =>
          if e.group == idx then { e with group := old } else e).map
        fun (e : CrtcEntry) =>
          if e.crtc == cur then { e with group := idx } else e).map
      CrtcEntry.group).Nodup := by
  rw [List.map_map, List.map_map]
  have hfun : ((CrtcEntry.group ∘
      fun (e : CrtcEntry) => if e.crtc == cur then { e with group := idx } else e) ∘
      fun (e : CrtcEntry) => if e.group == idx then { e with group := old } else e) =
      fun (e : CrtcEntry) =>
        if e.crtc = cur then idx else if e.group = idx then old else e.group := by
    funext e
    by_cases h1 : e.group = idx <;> by_cases h2 : e.crtc = cur <;>
      simp [Function.comp, h1, h2]
  rw [hfun]
  have hkp : l.Pairwise fun a b => a.crtc ≠ b.crtc := List.pairwise_map.mp hkeys
  have hgp : l.Pairwise fun a b => a.group ≠ b.group := List.pairwise_map.mp hgids
  have hkAll : ∀ a ∈ l, ∀ b ∈ l, a ≠ b → a.crtc ≠ b.crtc :=
    hkp.forall fun _ _ h => Ne.symm h
  have hgAll : ∀ a ∈ l, ∀ b ∈ l, a ≠ b → a.group ≠ b.group :=
    hgp.forall fun _ _ h => Ne.symm h
  have huk : ∀ a ∈ l, a.crtc = cur → a = e0 := by
    intro a ha hak
    by_contra hne2
    exact hkAll a ha e0 he0 hne2 (hak.trans he0k.symm)
  have hug : ∀ a ∈ l, a.group = old → a = e0 := by
    intro a ha hag
    by_contra hne2
    exact hgAll a ha e0 he0 hne2 (hag.trans he0g.symm)
  refine List.pairwise_map.mpr ((hkp.and hgp).imp_of_mem ?_)
  intro a b ha hb hab
  obtain ⟨habk, habg⟩ := hab
  by_cases h2a : a.crtc = cur <;> by_cases h2b : b.crtc = cur
  · exact absurd ((huk a ha h2a).trans (huk b hb h2b).symm)
      (fun he => habg (congrArg CrtcEntry.group he))
  · rw [if_pos h2a, if_neg h2b]
    by_cases hbg : b.group = idx
    · rw [if_pos hbg]
      exact fun he => hne he.symm
    · rw [if_neg hbg]
      exact fun he => hbg he.symm
  · rw [if_neg h2a, if_pos h2b]
    by_cases hag : a.group = idx
    · rw [if_pos hag]
      exact hne
    · rw [if_neg hag]
      exact hag
  · rw [if_neg h2a, if_neg h2b]
    by_cases hag : a.group = idx <;> by_cases hbg : b.group = idx
    · exact absurd (hag.trans hbg.symm) habg
    · rw [if_pos hag, if_neg hbg]
      intro he
      have hb0 : b = e0 := hug b hb he.symm
      exact h2b (hb0 ▸ he0k)
    · rw [if_neg hag, if_pos hbg]
      intro he
      have ha0 : a = e0 := hug a ha he
      exact h2a (ha0 ▸ he0k)
    · rw [if_neg hag, if_neg hbg]
      exact habg

theorem focus_group_crtcInj (st : Lanta) (idx : Nat) (h : Lanta.CrtcInj st) :
    Lanta.CrtcInj (Lanta.focus_group st idx) := by
  obtain ⟨hkeys, hgids⟩ := h
  simp only [Lanta.focus_group]
  split
  · exact ⟨hkeys, hgids⟩
  · cases hfind : st.crtc.find? (fun e => e.crtc == st.current_crtc) with
    | none =>
        simp only [Option.map_none']
        have hnokey : ∀ e ∈ st.crtc, ¬ e.crtc = st.current_crtc := by
          intro e he
          have := List.find?_eq_none.mp hfind e he
          simpa using this
        have hid : (st.crtc.map fun (e : CrtcEntry) =>
            if e.crtc == st.current_crtc then { e with group := idx } else e) = st.crtc := by
          have := List.map_congr_left (l := st.crtc)
            (f := fun (e : CrtcEntry) =>
              if e.crtc == st.current_crtc then { e with group := idx } else e)
            (g := fun e => e) ?_
          · simpa using this
          · intro e he
            simp [hnokey e he]
        constructor
        · rw [hid]; exact hkeys
        · rw [hid]; exact hgids
    | some e0 =>
        simp only [Option.map_some']
        have he0mem : e0 ∈ st.crtc := List.mem_of_find?_eq_some hfind
        have he0key : e0.crtc = st.current_crtc := by
          have := List.find?_some hfind
          simpa using this
        have huk : ∀ a ∈ st.crtc, a.crtc = st.current_crtc → a = e0 := by
          have hkp : st.crtc.Pairwise fun a b => a.crtc ≠ b.crtc :=
            List.pairwise_map.mp hkeys
          have hkAll : ∀ a ∈ st.crtc, ∀ b ∈ st.crtc, a ≠ b → a.crtc ≠ b.crtc :=
            hkp.forall fun _ _ hcc => Ne.symm hcc
          intro a ha hak
          by_contra hne2
          exact hkAll a ha e0 he0mem hne2 (hak.trans he0key.symm)
        by_cases hne : e0.group = idx
        · rw [if_neg (by simp [hne])]
          have hid : (st.crtc.map fun (e : CrtcEntry) =>
              if e.crtc == st.current_crtc then { e with group := idx } else e) = st.crtc := by
            have := List.map_congr_left (l := st.crtc)
              (f := fun (e : CrtcEntry) =>
                if e.crtc == st.current_crtc then { e with group := idx } else e)
              (g := fun e => e) ?_
            · simpa using this
            · intro e he
              by_cases hk : e.crtc = st.current_crtc
              · have he0' : e = e0 := huk e he hk
                subst he0'
                simp only []
                rw [if_pos (by simp [hk]), ← hne]
              · simp [hk]
          constructor
          · rw [hid]; exact hkeys
          · rw [hid]; exact hgids
        · rw [if_pos hne]
          constructor
          · rw [List.map_map, List.map_map]
            have hfun : ((CrtcEntry.crtc ∘
                fun (e : CrtcEntry) =>
                  if e.crtc == st.current_crtc then { e with group := idx } else e) ∘
                fun (e : CrtcEntry) =>
                  if e.group == idx then { e with group := e0.group } else e) =
                CrtcEntry.crtc := by
              funext e
              by_cases h1 : e.group = idx <;> by_cases h2 : e.crtc = st.current_crtc <;>
                simp [Function.comp, h1, h2]
            rw [hfun]
            exact hkeys
          · exact swap_gids_nodup st.crtc st.current_crtc e0.group idx hkeys hgids
              e0 he0mem he0key rfl hne

theorem crtcInj_crtc_eq {s1 s2 : Lanta} (h : s1.crtc = s2.crtc)
    (hinj : Lanta.CrtcInj s1) : Lanta.CrtcInj s2 := by
  obtain ⟨h1, h2⟩ := hinj
  exact ⟨h ▸ h1, h ▸ h2⟩

theorem on_crtc_change_crtcInj (st : Lanta) (change : CrtcChange) (st2 : Lanta)
    (h : Lanta.on_crtc_change st change = some st2) (hinj : Lanta.CrtcInj st) :
    Lanta.CrtcInj st2 := by
  obtain ⟨hkeys, hgids⟩ := hinj
  simp only [Lanta.on_crtc_change] at h
  split at h
  · split at h
    · -- known output: geometry update only
      injection h with h
      subst h
      constructor
      · rw [List.map_map]
        have hfun : ∀ e ∈ st.crtc, (CrtcEntry.crtc ∘ fun (e : CrtcEntry) =>
            if e.crtc == change.crtc then
              { e with info := ⟨change.x, change.y, change.width, change.height⟩ }
            else e) e = CrtcEntry.crtc e := by
          intro e _
          by_cases hc : e.crtc = change.crtc <;> simp [Function.comp, hc]
        rw [List.map_congr_left hfun]
        exact hkeys
      · rw [List.map_map]
        have hfun : ∀ e ∈ st.crtc, (CrtcEntry.group ∘ fun (e : CrtcEntry) =>
            if e.crtc == change.crtc then
              { e with info := ⟨change.x, change.y, change.width, change.height⟩ }
            else e) e = CrtcEntry.group e := by
          intro e _
          by_cases hc : e.crtc = change.crtc <;> simp [Function.comp, hc]
        rw [List.map_congr_left hfun]
        exact hgids
    · -- fresh output: append with the least unallocated group
      rename_i hany
      injection h with h
      subst h
      have hfresh : change.crtc ∉ st.crtc.map CrtcEntry.crtc := by
        intro hmem
        obtain ⟨e, he, hek⟩ := List.mem_map.mp hmem
        exact hany (by
          refine List.any_eq_true.mpr ⟨e, he, ?_⟩
          simp [hek])
      have hgnew := (find_next_unallocated_group_spec st).1
      constructor
      · rw [List.map_append]
        simp only [List.map_cons, List.map_nil]
        rw [List.nodup_append]
        refine ⟨hkeys, List.nodup_singleton _, ?_⟩
        intro c hc hcmem
        have hce : c = change.crtc := by simpa using hcmem
        exact hfresh (hce ▸ hc)
      · rw [List.map_append]
        simp only [List.map_cons, List.map_nil]
        rw [List.nodup_append]
        refine ⟨hgids, List.nodup_singleton _, ?_⟩
        intro g hg hgmem
        have hge : g = Lanta.find_next_unallocated_group st := by simpa using hgmem
        exact hgnew (hge ▸ hg)
  · -- zero-size: removal
    have hsubk : ((st.crtc.filter fun e => !(e.crtc == change.crtc)).map
        CrtcEntry.crtc).Nodup := hkeys.sublist ((List.filter_sublist st.crtc).map _)
    have hsubg : ((st.crtc.filter fun e => !(e.crtc == change.crtc)).map
        CrtcEntry.group).Nodup := hgids.sublist ((List.filter_sublist st.crtc).map _)
    split at h
    · split at h
      · injection h with h
        subst h
        exact ⟨hsubk, hsubg⟩
      · exact absurd h (by simp)
    · injection h with h
      subst h
      exact ⟨hsubk, hsubg⟩

theorem shift_group_crtcInj (st : Lanta) (fn : Nat → Nat → Option Nat)
    (hinj : Lanta.CrtcInj st) : Lanta.CrtcInj (Lanta.shift_group st fn) := by
  simp only [Lanta.shift_group]
  split
  · exact focus_group_crtcInj _ _ hinj
  · exact hinj

theorem move_focused_to_group_crtcInj (st : Lanta) (fn : Nat → Nat → Option Nat)
    (hinj : Lanta.CrtcInj st) : Lanta.CrtcInj (Lanta.move_focused_to_group st fn) := by
  simp only [Lanta.move_focused_to_group]
  split
  · apply focus_group_crtcInj
    split
    · exact crtcInj_crtc_eq rfl hinj
    · exact hinj
  · exact hinj

theorem applyWMOp_crtcInj (op : Lanta.WMOp) (s s2 : Lanta)
    (h : Lanta.applyWMOp op s = some s2) (hinj : Lanta.CrtcInj s) :
    Lanta.CrtcInj s2 := by
  cases op with
  | focusGroup idx =>
      injection h with h
      subst h
      exact focus_group_crtcInj s idx hinj
  | nextGroup =>
      injection h with h
      subst h
      exact shift_group_crtcInj s _ hinj
  | prevGroup =>
      injection h with h
      subst h
      exact shift_group_crtcInj s _ hinj
  | moveFocusedNext =>
      injection h with h
      subst h
      exact move_focused_to_group_crtcInj s _ hinj
  | moveFocusedPrev =>
      injection h with h
      subst h
      exact move_focused_to_group_crtcInj s _ hinj
  | rotateCrtc choice =>
      injection h with h
      subst h
      simp only [Lanta.rotate_crtc]
      split
      · exact crtcInj_crtc_eq rfl hinj
      · exact hinj
  | crtcChange change =>
      exact on_crtc_change_crtcInj s change s2 h hinj

theorem applyWMOps_crtcInj :
    ∀ (σ : List Lanta.WMOp) (s s2 : Lanta), Lanta.applyWMOps σ s = some s2 →
      Lanta.CrtcInj s → Lanta.CrtcInj s2 := by
  intro σ
  induction σ with
  | nil =>
      intro s s2 h hinj
      simp only [Lanta.applyWMOps] at h
      injection h with h
      subst h
      exact hinj
  | cons op rest ih =>
      intro s s2 h hinj
      simp only [Lanta.applyWMOps] at h
      cases hop : Lanta.applyWMOp op s with
      | none => rw [hop] at h; simp at h
      | some s1 =>
          rw [hop] at h
          simp only [Option.some_bind] at h
          exact ih s1 s2 h (applyWMOp_crtcInj op s s1 hop hinj)

theorem startup_state_crtcInj (groups : List Group) (listed : List (Nat × CrtcInfo))
    (hkeys : (listed.map Prod.fst).Nodup) :
    Lanta.CrtcInj (Lanta.startup_state groups listed) := by
  simp only [Lanta.startup_state, Lanta.startup_crtc, Lanta.CrtcInj]
  set kept := listed.filter fun e => 0 < e.2.width ∧ 0 < e.2.height with hkept
  have hlen : kept.length ≤ (List.range kept.length).length := by simp
  have hlen2 : (List.range kept.length).length ≤ kept.length := by simp
  constructor
  · rw [List.map_map]
    have : (CrtcEntry.crtc ∘ fun e : (Nat × CrtcInfo) × Nat => (⟨e.1.1, e.1.2, e.2⟩ : CrtcEntry)) =
        (Prod.fst ∘ Prod.fst) := rfl
    rw [this, ← List.map_map, List.map_fst_zip kept (List.range kept.length) hlen]
    have hsub : (kept.map Prod.fst).Sublist (listed.map Prod.fst) :=
      (List.filter_sublist listed).map Prod.fst
    exact hkeys.sublist hsub
  · rw [List.map_map]
    have : (CrtcEntry.group ∘ fun e : (Nat × CrtcInfo) × Nat => (⟨e.1.1, e.1.2, e.2⟩ : CrtcEntry)) =
        Prod.snd := rfl
    rw [this, List.map_snd_zip kept (List.range kept.length) hlen2]
    exact List.nodup_range kept.length

/-- Claim C3: starting from the startup assignment (each surviving output
a distinct group in enumeration order), any sequence of
`focus_group`-backed group switches (`next_group`/`prev_group`/
`switch_group`), `move_focused_to_*_group`, `rotate_crtc` and
`on_crtc_change` hot-plug add/update/remove events keeps the crtc table
injective on its group component: no two outputs reference the same
GroupId. -/
theorem c3_output_group_injective (groups : List Group)
    (listed : List (Nat × CrtcInfo)) (σ : List Lanta.WMOp) (st2 : Lanta)
    (hkeys : (listed.map Prod.fst).Nodup)
    (h : Lanta.applyWMOps σ (Lanta.startup_state groups listed) = some st2) :
    (st2.crtc.map CrtcEntry.group).Nodup :=
  (applyWMOps_crtcInj σ (Lanta.startup_state groups listed) st2 h
    (startup_state_crtcInj groups listed hkeys)).2

/-- Witness for C3: three configured groups, outputs 10 and 12 survive
startup (11 is zero-sized); then switch output 10 to group 2, hot-plug
output 13 (allocating group 0), rotate to output 12, step it to the
previous group (swapping with output 13), and unplug output 10.  The final
table assigns groups 0 and 1 to outputs 12 and 13 — still injective. -/
theorem c3_output_group_injective_witness :
    ((Lanta.mk [Group.mk "a" 0 none, Group.mk "b" 0 none, Group.mk "c" 0 none] []
        [CrtcEntry.mk 12 (CrtcInfo.mk 0 0 1 1) 0, CrtcEntry.mk 13 (CrtcInfo.mk 0 0 1 1) 1]
        12).crtc.map CrtcEntry.group).Nodup :=
  c3_output_group_injective
    [Group.mk "a" 0 none, Group.mk "b" 0 none, Group.mk "c" 0 none]
    [(10, CrtcInfo.mk 0 0 1 1), (11, CrtcInfo.mk 0 0 0 0), (12, CrtcInfo.mk 0 0 1 1)]
    [Lanta.WMOp.focusGroup 2, Lanta.WMOp.crtcChange (CrtcChange.mk 13 0 0 1 1),
      Lanta.WMOp.rotateCrtc 12, Lanta.WMOp.prevGroup,
      Lanta.WMOp.crtcChange (CrtcChange.mk 10 0 0 0 0)]
    (Lanta.mk [Group.mk "a" 0 none, Group.mk "b" 0 none, Group.mk "c" 0 none] []
      [CrtcEntry.mk 12 (CrtcInfo.mk 0 0 1 1) 0, CrtcEntry.mk 13 (CrtcInfo.mk 0 0 1 1) 1]
      12)
    (by decide) (by decide)

end LantaWM
